import Mathlib

/-!
# Verification of the fluent workflow-builder facade

Shallow embedding of `src/libs/langgraph/langgraph/graph/fluent.py`:
the `FluentNode` / `FluentWorkflow` builder facade over the external
`StateGraph` graph engine.  Python objects are embedded as records;
object identity (needed where the source compares references or
mutates shared dictionaries) is embedded as explicit natural-number
identities.  Every facade operation that can raise becomes a function
into `Except Err _`; operations that cannot raise are plain functions.
The external engine is out of scope for the facade and is embedded as
a recorder of the structural calls the facade forwards to it.
-/

namespace Fluent

/-- Opaque identifier standing for a Python callable.  The facade never
invokes callables; it only stores and forwards them, so identity is all
that matters. -/
abbrev Fn := Nat

/-- Modelled from the spec: the terminal marker `END` is imported from the
constants module of the engine (`langgraph.constants`, not under `src/`).  It is
a distinguished sentinel string, distinct from its public string alias
`"END"` (the source test `other == "END" or other == END` at
`fluent.py:116` treats the two as different values, and spec section 9
describes the marker as "a distinguished sentinel and its string alias").
The engine gives it the concrete value below. -/
def ENDMarker : String := "__end__"

/-- Embeds `FluentNode` (fluent.py:31-131).  `name` and `function` are the
attributes set in `__init__` / `with_function`; `workflow` embeds the
`_workflow` back-reference as the identity of the owning
`FluentWorkflow` object (`none` while detached). -/
structure FluentNode where
  name : String
  function : Option Fn
  workflow : Option Nat
deriving Repr, DecidableEq

/-- Modelled from the spec: the consumed engine interface (spec section 6).
The engine (`StateGraph`, imported from `langgraph.graph.state`, not under
`src/`) is external; the facade only issues structural calls to it, so it
is embedded as a recorder of those calls, in order. -/
structure StateGraph where
  nodeCalls : List (String × Fn)
  edgeCalls : List (String × String)
  condCalls : List (String × Fn × List (String × String))
  entryCalls : List String
deriving Repr, DecidableEq

/-- Modelled from the spec: `engine.add_node(name, callable)`. -/
def StateGraph.add_node (g : StateGraph) (name : String) (f : Fn) : StateGraph :=
  { g with nodeCalls := g.nodeCalls ++ [(name, f)] }

/-- Modelled from the spec: `engine.add_edge(fromName, toName)`. -/
def StateGraph.add_edge (g : StateGraph) (a b : String) : StateGraph :=
  { g with edgeCalls := g.edgeCalls ++ [(a, b)] }

/-- Modelled from the spec: `engine.add_conditional_edges(sourceName,
conditionFn, mapping-of-key-to-name)`. -/
def StateGraph.add_conditional_edges (g : StateGraph) (src : String) (f : Fn)
    (mapping : List (String × String)) : StateGraph :=
  { g with condCalls := g.condCalls ++ [(src, f, mapping)] }

/-- Modelled from the spec: `engine.set_entry_point(name)`. -/
def StateGraph.set_entry_point (g : StateGraph) (name : String) : StateGraph :=
  { g with entryCalls := g.entryCalls ++ [name] }

/-- Modelled from the spec: the opaque executable artifact that
`engine.compile(options)` produces; the facade returns it unmodified, so
it is embedded as the recorded structure together with the options the
facade forwarded. -/
structure Compiled where
  graph : StateGraph
  options : Nat
deriving Repr, DecidableEq

/-- Modelled from the spec: `engine.compile(options)`. -/
def StateGraph.compile (g : StateGraph) (options : Nat) : Compiled :=
  ⟨g, options⟩

/-- Embeds `FluentWorkflow` (fluent.py:134-329).  `id` is the identity of the object (the source compares workflow references with `!=` at
fluent.py:110, which for these classes is identity comparison); `graph`
embeds `_graph`, `nodes` embeds the `_nodes` dictionary as an
insertion-ordered association list with unique keys, `entry` embeds
`_entry_point`. -/
structure FluentWorkflow where
  id : Nat
  graph : StateGraph
  nodes : List (String × FluentNode)
  entry : Option String
deriving Repr, DecidableEq

/-- Embeds `FluentWorkflow.__init__` / `create_workflow` (fluent.py:169-178,
333-354): a fresh workflow with the given identity, a fresh engine, an
empty node mapping and no entry point.  The state schema is forwarded to
the engine and plays no further role in the facade, so it is elided. -/
def create_workflow (id : Nat) : FluentWorkflow :=
  ⟨id, ⟨[], [], [], []⟩, [], none⟩

/-- Python dictionary assignment `d[k] = v`: replaces the value in place
when the key is present, appends otherwise. -/
def dictSet (d : List (String × FluentNode)) (k : String) (v : FluentNode) :
    List (String × FluentNode) :=
  if (d.lookup k).isSome then
    d.map (fun p => if p.1 = k then (k, v) else p)
  else
    d ++ [(k, v)]

/-- The distinct raise sites of the facade (all `ValueError` in the source;
the spec names them individually, so they are distinguished here by
site). -/
inductive Err where
  /-- fluent.py:107 — node used for edge creation before registration
  (spec: `PreconditionError`). -/
  | notRegistered
  /-- fluent.py:111 — edge between nodes of different workflows
  (spec: `CrossWorkflowError`). -/
  | crossWorkflow
  /-- fluent.py:122 — edge target neither node nor string
  (spec: `InvalidTargetError`). -/
  | invalidTarget
  /-- fluent.py:199 — workflow `>>` applied to a non-node. -/
  | notFluentNode
  /-- fluent.py:202 — node registered without a bound callable
  (spec: `MissingCallableError`). -/
  | missingFunction
  /-- fluent.py:245 — entry point name not registered
  (spec: `UnknownNodeError`). -/
  | unknownNode
  /-- fluent.py:310 — compile with no entry point
  (spec: `NoEntryPointError`). -/
  | noEntryPoint
deriving Repr, DecidableEq

/-- The runtime type of the `other` argument of `FluentNode.__rshift__`
(`Union[FluentNode, str]` in the annotation; `other` embeds any further
runtime type, which the source rejects). -/
inductive Target where
  | node (n : FluentNode)
  | str (s : String)
  | other
deriving Repr, DecidableEq

/-- Embeds `FluentNode.__rshift__` (`connect_to`, fluent.py:84-122).  The
source mutates `self._workflow._graph` through the back-reference of the node;
here the owning workflow `w` is passed explicitly, and theorems that use
a registered node assume `self.workflow = some w.id`.  On success the
result is the updated workflow together with the returned node (the
target node for a node target, `self` for a string target).  Errors are
raised before any engine mutation, so the error cases return no updated
state. -/
def FluentNode.rshift (self : FluentNode) (w : FluentWorkflow) (other : Target) :
    Except Err (FluentWorkflow × FluentNode) :=
  match self.workflow with
  | none => .error .notRegistered
  | some _ =>
    match other with
    | .node o =>
        if o.workflow ≠ self.workflow then
          .error .crossWorkflow
        else
          .ok ({ w with graph := w.graph.add_edge self.name o.name }, o)
    | .str s =>
        if s = "END" ∨ s = ENDMarker then
          .ok ({ w with graph := w.graph.add_edge self.name ENDMarker }, self)
        else
          .ok ({ w with graph := w.graph.add_edge self.name s }, self)
    | .other => .error .invalidTarget

/-- The runtime type of the argument of `FluentWorkflow.__rshift__`
(annotated `FluentNode`; `other` embeds any non-node runtime value, which
the source rejects at fluent.py:198). -/
inductive NodeArg where
  | node (n : FluentNode)
  | other
deriving Repr, DecidableEq

/-- Embeds `FluentWorkflow.__rshift__` (`register`, fluent.py:180-211).
Records the node in `_nodes` under its name, sets the back-reference of
the node (`node._workflow = self`; the dictionary holds the same
object, so the stored entry carries the back-reference too), forwards
name and callable to the engine, and returns the node. -/
def FluentWorkflow.rshift (self : FluentWorkflow) (arg : NodeArg) :
    Except Err (FluentWorkflow × FluentNode) :=
  match arg with
  | .other => .error .notFluentNode
  | .node node =>
    match node.function with
    | none => .error .missingFunction
    | some f =>
        let node' := { node with workflow := some self.id }
        .ok ({ self with
                 nodes := dictSet self.nodes node.name node',
                 graph := self.graph.add_node node.name f }, node')

/-- Embeds `FluentWorkflow.add_node` (fluent.py:213-224): `self >> node`
followed by `return self`. -/
def FluentWorkflow.add_node (self : FluentWorkflow) (arg : NodeArg) :
    Except Err FluentWorkflow := do
  let (w, _) ← self.rshift arg
  pure w

/-- The runtime type of `Union[str, FluentNode]` arguments. -/
inductive NameOrNode where
  | node (n : FluentNode)
  | str (s : String)
deriving Repr, DecidableEq

/-- The name-resolution step shared by `set_entry_point` (fluent.py:239-242)
and the `source` argument of `add_conditional_edges` (fluent.py:268-271):
a node resolves to its name, a string passes through. -/
def NameOrNode.resolve : NameOrNode → String
  | .node n => n.name
  | .str s => s

/-- Embeds `FluentWorkflow.set_entry_point` (fluent.py:226-249): resolves
the argument to a name, raises when the name is not a key of `_nodes`,
otherwise records the entry point, forwards it to the engine and returns
the workflow. -/
def FluentWorkflow.set_entry_point (self : FluentWorkflow) (arg : NameOrNode) :
    Except Err FluentWorkflow :=
  if (self.nodes.lookup arg.resolve).isNone then
    .error .unknownNode
  else
    .ok { self with
            entry := some arg.resolve,
            graph := self.graph.set_entry_point arg.resolve }

/-- The runtime type of mapping values in `add_conditional_edges`
(annotated `Union[str, FluentNode]`). -/
inductive MapVal where
  | node (n : FluentNode)
  | str (s : String)
deriving Repr, DecidableEq

/-- The per-value conversion of `add_conditional_edges` (fluent.py:274-279):
a node value becomes its name, any other value passes through unchanged. -/
def MapVal.resolve : MapVal → String
  | .node n => n.name
  | .str s => s

/-- Embeds `FluentWorkflow.add_conditional_edges` (fluent.py:251-282):
resolves the source to a name, converts node values of the mapping to
their names leaving other values unchanged, forwards everything to the
engine and returns the workflow.  No error is ever raised. -/
def FluentWorkflow.add_conditional_edges (self : FluentWorkflow)
    (source : NameOrNode) (condition_func : Fn)
    (mapping : List (String × MapVal)) : FluentWorkflow :=
  let source_name := source.resolve
  let converted_mapping := mapping.map (fun p => (p.1, p.2.resolve))
  { self with
      graph := self.graph.add_conditional_edges source_name condition_func
        converted_mapping }

/-- Embeds `FluentWorkflow.get_node` (fluent.py:284-294):
`self._nodes.get(name)`. -/
def FluentWorkflow.get_node (self : FluentWorkflow) (name : String) :
    Option FluentNode :=
  self.nodes.lookup name

/-- Python truthiness of `self._entry_point` as a `str | None`: falsy
exactly when absent or the empty string.  `compile` guards on
`if not self._entry_point` (fluent.py:309). -/
def entryFalsy : Option String → Bool
  | none => true
  | some s => s = ""

/-- Embeds `FluentWorkflow.compile` (fluent.py:296-311): raises when
`_entry_point` is falsy, otherwise forwards the options to the compile
operation of the engine and returns its artifact unmodified. -/
def FluentWorkflow.compile (self : FluentWorkflow) (options : Nat) :
    Except Err Compiled :=
  if entryFalsy self.entry then
    .error .noEntryPoint
  else
    .ok (self.graph.compile options)

/-! ## Object-level model of the `_nodes` dictionary

The `nodes` accessor (fluent.py:318-321) returns `self._nodes.copy()`: a
*new* dictionary object with the same contents.  Whether mutating the
returned object affects the workflow is a fact about Python object
identity, invisible to the value-level embedding above, so the
dictionary heap is made explicit here: dictionaries are addressed by
identity in a store, the workflow holds the identity of its `_nodes`
object, and the accessor allocates a fresh identity. -/

/-- A store of Python dictionary objects: the index into `dicts` is the
identity of the object; allocation appends. -/
structure DictStore where
  dicts : List (List (String × FluentNode))
deriving Repr, DecidableEq

/-- Read the contents of the dictionary object with identity `i`. -/
def DictStore.read (s : DictStore) (i : Nat) : List (String × FluentNode) :=
  (s.dicts.get? i).getD []

/-- Allocate a fresh dictionary object with the given contents; returns the
new store and the identity of the fresh object. -/
def DictStore.alloc (s : DictStore) (d : List (String × FluentNode)) :
    DictStore × Nat :=
  (⟨s.dicts ++ [d]⟩, s.dicts.length)

/-- Mutate the dictionary object with identity `i` to hold contents `d`
(covers any caller-side mutation of a returned dictionary: adding,
removing or replacing entries yields some new contents). -/
def DictStore.write (s : DictStore) (i : Nat) (d : List (String × FluentNode)) :
    DictStore :=
  ⟨s.dicts.set i d⟩

/-- The object-level view of a workflow for the dictionary claims: the
identity of its `_nodes` dictionary object. -/
structure FluentWorkflowRef where
  nodesRef : Nat
deriving Repr, DecidableEq

/-- Embeds the `nodes` property (fluent.py:318-321) at the object level:
`return self._nodes.copy()` allocates a fresh dictionary object holding a
copy of the contents of `self._nodes` and returns it. -/
def FluentWorkflowRef.nodesProp (self : FluentWorkflowRef) (s : DictStore) :
    DictStore × Nat :=
  s.alloc (s.read self.nodesRef)

/-- Embeds `FluentWorkflow.get_node` (fluent.py:284-294) at the object
level: `self._nodes.get(name)` reads the dictionary object of the workflow and
performs no store mutation, so the store is returned unchanged. -/
def FluentWorkflowRef.get_nodeRef (self : FluentWorkflowRef) (s : DictStore)
    (name : String) : Option FluentNode × DictStore :=
  ((s.read self.nodesRef).lookup name, s)


/-! ## Helper lemmas about the dictionary embedding -/

/-- Replacing the value at key `k` throughout an association list yields
`some v` at `k` whenever `k` was present. -/
theorem lookup_mapSet_self (d : List (String × FluentNode)) (k : String)
    (v : FluentNode) (h : (d.lookup k).isSome) :
    (d.map (fun p => if p.1 = k then (k, v) else p)).lookup k = some v := by
  induction d with
  | nil => simp at h
  | cons p d ih =>
    rcases p with ⟨a, b⟩
    by_cases hk : a = k
    · subst hk
      simp [List.lookup_cons]
    · have hb : (k == a) = false := beq_eq_false_iff_ne.mpr (Ne.symm hk)
      rw [List.lookup_cons] at h
      simp only [hb] at h
      simp only [List.map_cons, if_neg hk, List.lookup_cons, hb]
      exact ih h

/-- Replacing the value at key `k2` leaves lookups at a different key
unchanged. -/
theorem lookup_mapSet_ne (d : List (String × FluentNode)) (k k2 : String)
    (hne : k ≠ k2) (v : FluentNode) :
    (d.map (fun p => if p.1 = k2 then (k2, v) else p)).lookup k = d.lookup k := by
  induction d with
  | nil => simp
  | cons p d ih =>
    rcases p with ⟨a, b⟩
    by_cases ha : a = k2
    · subst ha
      have hb : (k == a) = false := beq_eq_false_iff_ne.mpr hne
      simp only [List.map_cons, eq_self_iff_true, if_true, List.lookup_cons, hb]
      exact ih
    · by_cases hk : k = a
      · have hb : (k == a) = true := by simp [hk]
        simp [List.map_cons, if_neg ha, List.lookup_cons, hb]
      · have hb : (k == a) = false := beq_eq_false_iff_ne.mpr hk
        simp only [List.map_cons, if_neg ha, List.lookup_cons, hb]
        exact ih

/-- Appending a binding for an absent key makes it the result of lookup. -/
theorem lookup_append_single (d : List (String × FluentNode)) (k : String)
    (v : FluentNode) (h : d.lookup k = none) :
    (d ++ [(k, v)]).lookup k = some v := by
  induction d with
  | nil => simp [List.lookup_cons]
  | cons p d ih =>
    rcases p with ⟨a, b⟩
    rw [List.lookup_cons] at h
    by_cases hk : k = a
    · have hb : (k == a) = true := by simp [hk]
      simp [hb] at h
    · have hb : (k == a) = false := beq_eq_false_iff_ne.mpr hk
      simp only [hb] at h
      simp only [List.cons_append, List.lookup_cons, hb]
      exact ih h

/-- Appending a binding for a different key leaves lookups unchanged. -/
theorem lookup_append_ne (d : List (String × FluentNode)) (k k2 : String)
    (hne : k ≠ k2) (v : FluentNode) :
    (d ++ [(k2, v)]).lookup k = d.lookup k := by
  induction d with
  | nil => simp [List.lookup_cons, beq_eq_false_iff_ne.mpr hne]
  | cons p d ih =>
    rcases p with ⟨a, b⟩
    by_cases hk : k = a
    · have hb : (k == a) = true := by simp [hk]
      simp [List.lookup_cons, hb]
    · have hb : (k == a) = false := beq_eq_false_iff_ne.mpr hk
      simp only [List.cons_append, List.lookup_cons, hb]
      exact ih

/-- Looking up the key just assigned by `dictSet` yields the assigned
value. -/
theorem dictSet_lookup_self (d : List (String × FluentNode)) (k : String)
    (v : FluentNode) : (dictSet d k v).lookup k = some v := by
  unfold dictSet
  split
  case isTrue h => exact lookup_mapSet_self d k v h
  case isFalse h =>
    exact lookup_append_single d k v (Option.not_isSome_iff_eq_none.mp h)

/-- `dictSet` at a different key leaves lookups unchanged. -/
theorem dictSet_lookup_ne (d : List (String × FluentNode)) (k k2 : String)
    (hne : k ≠ k2) (v : FluentNode) :
    (dictSet d k2 v).lookup k = d.lookup k := by
  unfold dictSet
  split
  case isTrue h => exact lookup_mapSet_ne d k k2 hne v
  case isFalse h => exact lookup_append_ne d k k2 hne v

/-- `dictSet` never removes a key: any key present before an assignment is
still present after it. -/
theorem dictSet_lookup_isSome_mono (d : List (String × FluentNode))
    (k k2 : String) (v : FluentNode) (h : (d.lookup k).isSome) :
    ((dictSet d k2 v).lookup k).isSome := by
  by_cases hkk : k = k2
  · subst hkk
    simp [dictSet_lookup_self]
  · rw [dictSet_lookup_ne d k k2 hkk v]
    exact h


/-! ## Concrete fixtures for the closed instantiations -/

/-- Fixture: node `A` registered in the workflow with identity 0. -/
def nodeA : FluentNode := ⟨"A", some 0, some 0⟩

/-- Fixture: node `B` registered in the workflow with identity 0. -/
def nodeB : FluentNode := ⟨"B", some 1, some 0⟩

/-- Fixture: node `C` registered in the workflow with identity 0. -/
def nodeC : FluentNode := ⟨"C", some 2, some 0⟩

/-- Fixture: a workflow with identity 0 holding the three registered nodes
`A`, `B`, `C`, as three registrations into a fresh workflow leave it. -/
def wABC : FluentWorkflow :=
  ⟨0, ⟨[("A", 0), ("B", 1), ("C", 2)], [], [], []⟩,
    [("A", nodeA), ("B", nodeB), ("C", nodeC)], none⟩

/-- Fixture: a second, distinct workflow. -/
def wOther : FluentWorkflow := create_workflow 1

/-- Fixture: a node registered in the second workflow. -/
def nodeD : FluentNode := ⟨"D", some 3, some 1⟩

/-- Fixture: a node never registered into any workflow. -/
def nodeZ : FluentNode := ⟨"Z", some 9, none⟩

/-! ## The claims -/

/-- Claim C4: for nodes registered in the same workflow, `connect_to` of
the terminal marker adds an edge from the node to the marker and returns
the originating node itself (not the marker), while `connect_to` of
another node adds a directed edge between the two names and returns the
target node, so the chained calls `a.connect_to(b).connect_to(c)` wire
exactly a→b and b→c. -/
theorem connect_to_wiring (w : FluentWorkflow) (a b c : FluentNode)
    (ha : a.workflow = some w.id) (hb : b.workflow = some w.id)
    (hc : c.workflow = some w.id) :
    a.rshift w (.str ENDMarker) =
        .ok ({ w with graph := w.graph.add_edge a.name ENDMarker }, a) ∧
    a.rshift w (.node b) =
        .ok ({ w with graph := w.graph.add_edge a.name b.name }, b) ∧
    (∀ w1 r1 w2 r2,
      a.rshift w (.node b) = .ok (w1, r1) →
      r1.rshift w1 (.node c) = .ok (w2, r2) →
      r2 = c ∧
        w2.graph.edgeCalls =
          w.graph.edgeCalls ++ [(a.name, b.name), (b.name, c.name)]) := by
  refine ⟨?_, ?_, ?_⟩
  · simp [FluentNode.rshift, ha]
  · simp [FluentNode.rshift, ha, hb]
  · intro w1 r1 w2 r2 h1 h2
    have hab : a.rshift w (.node b) =
        .ok ({ w with graph := w.graph.add_edge a.name b.name }, b) := by
      simp [FluentNode.rshift, ha, hb]
    rw [hab] at h1
    obtain ⟨hw1, hr1⟩ : { w with graph := w.graph.add_edge a.name b.name } = w1 ∧ b = r1 := by
      simpa only [Except.ok.injEq, Prod.mk.injEq] using h1
    subst hw1
    subst hr1
    have hbc : b.rshift { w with graph := w.graph.add_edge a.name b.name }
        (.node c) =
        .ok ({ w with
                 graph := (w.graph.add_edge a.name b.name).add_edge b.name
                   c.name }, c) := by
      simp [FluentNode.rshift, hb, hc]
    rw [hbc] at h2
    obtain ⟨hw2, hr2⟩ : { w with
        graph := (w.graph.add_edge a.name b.name).add_edge b.name c.name } =
          w2 ∧ c = r2 := by
      simpa only [Except.ok.injEq, Prod.mk.injEq] using h2
    subst hw2
    subst hr2
    simp [StateGraph.add_edge]

/-- Claim C4 closed instantiation. -/
theorem connect_to_wiring_witness :
    nodeA.rshift wABC (.str ENDMarker) =
      .ok ({ wABC with graph := wABC.graph.add_edge nodeA.name ENDMarker },
           nodeA) ∧
    nodeA.rshift wABC (.node nodeB) =
      .ok ({ wABC with graph := wABC.graph.add_edge nodeA.name nodeB.name },
           nodeB) :=
  ⟨(connect_to_wiring wABC nodeA nodeB nodeC rfl rfl rfl).1,
   (connect_to_wiring wABC nodeA nodeB nodeC rfl rfl rfl).2.1⟩

/-- Claim C5: `connect_to` on a node that has never been registered (its
owning-workflow reference is absent) fails with the precondition error
for every target, before any engine mutation. -/
theorem connect_before_registration (self : FluentNode) (w : FluentWorkflow)
    (t : Target) (h : self.workflow = none) :
    self.rshift w t = .error .notRegistered := by
  simp [FluentNode.rshift, h]

/-- Claim C5 closed instantiation. -/
theorem connect_before_registration_witness :
    (FluentNode.mk "fresh" (some 4) none).workflow = none ∧
      (FluentNode.mk "fresh" (some 4) none).rshift wABC (.node nodeB) =
        .error .notRegistered :=
  ⟨rfl, connect_before_registration _ _ _ rfl⟩

/-- Claim C6: `connect_to` between nodes registered in different workflow
instances fails with the cross-workflow error; no edge is forwarded to
either engine (the operation raises before mutating any state). -/
theorem connect_cross_workflow (w1 w2 : FluentWorkflow) (a b : FluentNode)
    (ha : a.workflow = some w1.id) (hb : b.workflow = some w2.id)
    (hne : w1.id ≠ w2.id) :
    a.rshift w1 (.node b) = .error .crossWorkflow := by
  have : b.workflow ≠ a.workflow := by
    rw [ha, hb]
    intro hcontra
    exact hne (Option.some.inj hcontra).symm
  simp [FluentNode.rshift, ha, hb] at this ⊢
  exact this

/-- Claim C6 closed instantiation. -/
theorem connect_cross_workflow_witness :
    nodeA.workflow = some wABC.id ∧ nodeD.workflow = some wOther.id ∧
      wABC.id ≠ wOther.id ∧
      nodeA.rshift wABC (.node nodeD) = .error .crossWorkflow :=
  ⟨rfl, rfl, by decide,
   connect_cross_workflow wABC wOther nodeA nodeD rfl rfl (by decide)⟩

/-- Claim C10: `connect_to` from a registered node to a node that has never
been registered anywhere fails with the cross-workflow error (the absent
back-reference compares unequal to the owning workflow), not with the
precondition error, and no edge is added. -/
theorem connect_to_detached_target (w : FluentWorkflow) (a b : FluentNode)
    (ha : a.workflow = some w.id) (hb : b.workflow = none) :
    a.rshift w (.node b) = .error .crossWorkflow := by
  simp [FluentNode.rshift, ha, hb]

/-- Claim C10 closed instantiation. -/
theorem connect_to_detached_target_witness :
    nodeA.workflow = some wABC.id ∧ nodeZ.workflow = none ∧
      nodeA.rshift wABC (.node nodeZ) = .error .crossWorkflow :=
  ⟨rfl, rfl, connect_to_detached_target wABC nodeA nodeZ rfl rfl⟩


/-- Claim C7: registration through the workflow `>>` operator fails with
the missing-callable error exactly when the node has no bound callable;
with a callable bound it succeeds, records the node under its name (so a
subsequent `get_node` of that name returns it), sets the owning-workflow
back-reference on the node, forwards name and callable to the engine,
and returns the node, leaving identity and entry point unchanged. -/
theorem register_spec (w : FluentWorkflow) (n : FluentNode) :
    (w.rshift (.node n) = .error .missingFunction ↔ n.function = none) ∧
    (∀ f, n.function = some f →
      ∃ w2,
        w.rshift (.node n) = .ok (w2, { n with workflow := some w.id }) ∧
        w2.get_node n.name = some { n with workflow := some w.id } ∧
        w2.graph = w.graph.add_node n.name f ∧
        w2.id = w.id ∧ w2.entry = w.entry) := by
  constructor
  · cases hf : n.function with
    | none => simp [FluentWorkflow.rshift, hf]
    | some f => simp [FluentWorkflow.rshift, hf]
  · intro f hf
    refine ⟨{ w with
              nodes := dictSet w.nodes n.name { n with workflow := some w.id },
              graph := w.graph.add_node n.name f }, ?_, ?_, rfl, rfl, rfl⟩
    · simp [FluentWorkflow.rshift, hf]
    · simp [FluentWorkflow.get_node, dictSet_lookup_self]

/-- Claim C7 closed instantiation. -/
theorem register_spec_witness :
    ((create_workflow 5).rshift (.node ⟨"N", none, none⟩) =
        .error .missingFunction) ∧
    ∃ w2, (create_workflow 5).rshift (.node ⟨"M", some 4, none⟩) =
          .ok (w2, ⟨"M", some 4, some 5⟩) ∧
        w2.get_node "M" = some ⟨"M", some 4, some 5⟩ :=
  ⟨(register_spec (create_workflow 5) ⟨"N", none, none⟩).1.mpr rfl,
   match (register_spec (create_workflow 5) ⟨"M", some 4, none⟩).2 4 rfl with
   | ⟨w2, h1, h2, _, _, _⟩ => ⟨w2, h1, h2⟩⟩

/-- Claim C8: `set_entry_point` resolves a node argument to its name and
passes a string argument through; it fails with the unknown-node error
exactly when the resolved name is not a key of the node mapping, and
otherwise records the name as the entry point, forwards it to the engine
and returns the workflow. -/
theorem set_entry_point_spec (w : FluentWorkflow) (arg : NameOrNode) :
    (∀ n, arg = .node n → arg.resolve = n.name) ∧
    (∀ s, arg = .str s → arg.resolve = s) ∧
    (w.set_entry_point arg = .error .unknownNode ↔
        (w.nodes.lookup arg.resolve).isNone) ∧
    ((w.nodes.lookup arg.resolve).isSome →
      w.set_entry_point arg =
        .ok { w with
                entry := some arg.resolve,
                graph := w.graph.set_entry_point arg.resolve }) := by
  refine ⟨?_, ?_, ?_, ?_⟩
  · intro n h
    subst h
    rfl
  · intro s h
    subst h
    rfl
  · unfold FluentWorkflow.set_entry_point
    by_cases h : (w.nodes.lookup arg.resolve).isNone
    · simp [h]
    · simp [h]
  · intro h
    unfold FluentWorkflow.set_entry_point
    have hn : ¬ ((w.nodes.lookup arg.resolve).isNone = true) := by
      rw [Option.isNone_iff_eq_none]
      intro hnone
      rw [hnone] at h
      simp at h
    rw [if_neg hn]

/-- Claim C8 closed instantiation. -/
theorem set_entry_point_spec_witness :
    wABC.set_entry_point (.str "missing") = .error .unknownNode ∧
    wABC.set_entry_point (.node nodeA) =
      .ok { wABC with
              entry := some "A",
              graph := wABC.graph.set_entry_point "A" } :=
  ⟨(set_entry_point_spec wABC (.str "missing")).2.2.1.mpr (by decide),
   (set_entry_point_spec wABC (.node nodeA)).2.2.2 (by decide)⟩


/-- Fixture: the workflow obtained by registering a node named by the
empty string into a fresh workflow. -/
def wEmptyReg : FluentWorkflow :=
  ⟨0, ⟨[("", 0)], [], [], []⟩, [("", ⟨"", some 0, some 0⟩)], none⟩

/-- Fixture: `wEmptyReg` after a successful `set_entry_point` with the
empty-string name. -/
def wEmptyEntry : FluentWorkflow :=
  ⟨0, ⟨[("", 0)], [], [], [""]⟩, [("", ⟨"", some 0, some 0⟩)], some ""⟩

/-- Claim C2 counterexample: a node named by the empty string registers
fine, `set_entry_point ""` succeeds and records the entry point, yet
`compile` still raises the no-entry-point error, because the source
guards on the truthiness of `_entry_point` and the empty string is falsy.
So compile does not forward to the engine for every workflow whose entry
point has been set by a successful `set_entry_point` call. -/
theorem compile_empty_entry_counterexample :
    (create_workflow 0).rshift (.node ⟨"", some 0, none⟩) =
        .ok (wEmptyReg, ⟨"", some 0, some 0⟩) ∧
    wEmptyReg.set_entry_point (.str "") = .ok wEmptyEntry ∧
    wEmptyEntry.entry = some "" ∧
    wEmptyEntry.compile 7 = .error .noEntryPoint := by
  refine ⟨?_, ?_, rfl, ?_⟩ <;> rfl

/-- Claim C2 (amended): `compile(options)` fails with the no-entry-point
error exactly when the recorded entry point is absent or is the empty
string (the source tests the truthiness of `_entry_point`, and a
successful `set_entry_point` with the registered empty-string name leaves
it falsy); for any other entry point it forwards the options to the
compile operation of the engine and returns the produced artifact
unmodified. -/
theorem compile_spec (w : FluentWorkflow) (options : Nat) :
    (w.compile options = .error .noEntryPoint ↔
        (w.entry = none ∨ w.entry = some "")) ∧
    ((w.entry ≠ none ∧ w.entry ≠ some "") →
      w.compile options = .ok (w.graph.compile options)) := by
  constructor
  · cases he : w.entry with
    | none => simp [FluentWorkflow.compile, entryFalsy, he]
    | some s =>
      by_cases hs : s = ""
      · subst hs
        simp [FluentWorkflow.compile, entryFalsy, he]
      · simp [FluentWorkflow.compile, entryFalsy, he, hs]
  · intro ⟨h1, h2⟩
    cases he : w.entry with
    | none => exact absurd he h1
    | some s =>
      have hs : s ≠ "" := by
        intro hcontra
        subst hcontra
        exact h2 he
      simp [FluentWorkflow.compile, entryFalsy, he, hs]

/-- Claim C2 closed instantiation of the amended theorem. -/
theorem compile_spec_witness :
    (({ wABC with entry := some "A" } : FluentWorkflow).entry ≠ none ∧
        ({ wABC with entry := some "A" } : FluentWorkflow).entry ≠ some "") ∧
      ({ wABC with entry := some "A" } : FluentWorkflow).compile 7 =
        .ok (wABC.graph.compile 7) :=
  ⟨by decide, (compile_spec { wABC with entry := some "A" } 7).2 (by decide)⟩

/-- Fixture: node `V` registered in the workflow with identity 3. -/
def nodeV : FluentNode := ⟨"V", some 10, some 3⟩

/-- Fixture: node `E` registered in the workflow with identity 3. -/
def nodeE : FluentNode := ⟨"E", some 11, some 3⟩

/-- Fixture: the workflow of the conditional-edges scenario, holding the
registered nodes `V` and `E`. -/
def wVE : FluentWorkflow :=
  ⟨3, ⟨[("V", 10), ("E", 11)], [], [], []⟩,
    [("V", nodeV), ("E", nodeE)], none⟩

/-- Claim C1 counterexample: in the scenario
`add_conditional_edges(V, routeFn, mapping)` where the mapping sends
"ok" to the node `E` and "fail" to the public alias string of the
terminal marker, the engine receives the raw alias string for "fail" —
`add_conditional_edges` passes string values through without the
alias-to-marker normalization that `connect_to` performs — and the alias
is not the terminal marker, so the engine does not receive the marker. -/
theorem add_conditional_edges_alias_counterexample :
    (wVE.add_conditional_edges (.node nodeV) 12
        [("ok", .node nodeE), ("fail", .str "END")]).graph.condCalls =
      [("V", 12, [("ok", "E"), ("fail", "END")])] ∧
    "END" ≠ ENDMarker :=
  ⟨rfl, by decide⟩

/-- Claim C1 (amended): `add_conditional_edges` resolves the source
argument to a name, converts every node-valued mapping entry to the name
of that node and passes every string value through unchanged — with no
normalization of the public `"END"` alias to the terminal marker, so the
engine receives the marker for a mapping entry only when the marker
value itself was passed, and in the scenario of the claim it receives
the raw alias string instead; the call forwards exactly one
conditional-edges engine call and returns the workflow with identity,
node mapping, entry point and plain edges unchanged. -/
theorem add_conditional_edges_spec (w : FluentWorkflow) (src : NameOrNode)
    (f : Fn) (mp : List (String × MapVal)) :
    (w.add_conditional_edges src f mp).id = w.id ∧
    (w.add_conditional_edges src f mp).nodes = w.nodes ∧
    (w.add_conditional_edges src f mp).entry = w.entry ∧
    (w.add_conditional_edges src f mp).graph.condCalls =
      w.graph.condCalls ++
        [(src.resolve, f, mp.map (fun p => (p.1, p.2.resolve)))] ∧
    (w.add_conditional_edges src f mp).graph.edgeCalls =
      w.graph.edgeCalls ∧
    (∀ n : FluentNode, MapVal.resolve (.node n) = n.name) ∧
    (∀ s : String, MapVal.resolve (.str s) = s) ∧
    MapVal.resolve (.str "END") = "END" ∧
    "END" ≠ ENDMarker := by
  refine ⟨rfl, rfl, rfl, rfl, rfl, fun n => rfl, fun s => rfl, rfl, by decide⟩


/-! ## Reachable configurations and the edge-endpoint invariant -/

/-- Inversion for a successful registration: the node had a callable, the
returned node carries the back-reference, and the workflow gained exactly
the dictionary entry and the engine call. -/
theorem rshift_register_inv (w : FluentWorkflow) (n : FluentNode)
    (w2 : FluentWorkflow) (n2 : FluentNode)
    (hok : w.rshift (.node n) = .ok (w2, n2)) :
    ∃ f, n.function = some f ∧
      n2 = { n with workflow := some w.id } ∧
      w2 = { w with
               nodes := dictSet w.nodes n.name { n with workflow := some w.id },
               graph := w.graph.add_node n.name f } := by
  cases hf : n.function with
  | none => simp [FluentWorkflow.rshift, hf] at hok
  | some f =>
    simp only [FluentWorkflow.rshift, hf, Except.ok.injEq, Prod.mk.injEq] at hok
    exact ⟨f, rfl, hok.2.symm, hok.1.symm⟩

/-- A successful `connect_to` changes only the graph: identity, node
mapping and entry point are untouched, and exactly one edge call is
issued. -/
theorem rshift_connect_inv (n : FluentNode) (w : FluentWorkflow) (t : Target)
    (w2 : FluentWorkflow) (r : FluentNode)
    (hok : n.rshift w t = .ok (w2, r)) :
    w2.id = w.id ∧ w2.nodes = w.nodes ∧ w2.entry = w.entry ∧
    ∃ tgt, w2.graph = w.graph.add_edge n.name tgt := by
  unfold FluentNode.rshift at hok
  split at hok
  · simp at hok
  · split at hok
    · split at hok
      · simp at hok
      · obtain ⟨hw, hr⟩ := by
          simpa only [Except.ok.injEq, Prod.mk.injEq] using hok
        exact hw ▸ ⟨rfl, rfl, rfl, _, rfl⟩
    · split at hok
      · obtain ⟨hw, hr⟩ := by
          simpa only [Except.ok.injEq, Prod.mk.injEq] using hok
        exact hw ▸ ⟨rfl, rfl, rfl, _, rfl⟩
      · obtain ⟨hw, hr⟩ := by
          simpa only [Except.ok.injEq, Prod.mk.injEq] using hok
        exact hw ▸ ⟨rfl, rfl, rfl, _, rfl⟩
    · simp at hok

/-- A successful `set_entry_point` changes neither identity nor the node
mapping. -/
theorem set_entry_point_inv (w : FluentWorkflow) (arg : NameOrNode)
    (w2 : FluentWorkflow) (hok : w.set_entry_point arg = .ok w2) :
    w2.id = w.id ∧ w2.nodes = w.nodes := by
  unfold FluentWorkflow.set_entry_point at hok
  split at hok
  · simp at hok
  · obtain hw := by simpa only [Except.ok.injEq] using hok
    exact hw ▸ ⟨rfl, rfl⟩

/-- A caller-side configuration for the reachability claims: a workflow
under construction together with the node objects the caller holds. -/
structure Config where
  w : FluentWorkflow
  ns : List FluentNode

/-- One builder step issued by application code against the tracked
workflow.  Creating a node yields a detached node; `with_function`
mutates the held node in place (the source updates the object, so every
held copy of it is updated); registration stores the node and sets its
back-reference; edge creation from a held node owned by this workflow,
entry-point designation and conditional edges mutate the workflow.
Calls that raise produce no step. -/
inductive Step : Config → Config → Prop where
  | newNode (c : Config) (name : String) :
      Step c ⟨c.w, ⟨name, none, none⟩ :: c.ns⟩
  | withFunction (c : Config) (n : FluentNode) (f : Fn) (hmem : n ∈ c.ns) :
      Step c ⟨c.w,
        c.ns.map (fun m => if m = n then { n with function := some f } else m)⟩
  | register (c : Config) (n : FluentNode) (w2 : FluentWorkflow)
      (n2 : FluentNode) (hmem : n ∈ c.ns)
      (hok : c.w.rshift (.node n) = .ok (w2, n2)) :
      Step c ⟨w2, c.ns.map (fun m => if m = n then n2 else m)⟩
  | connect (c : Config) (n : FluentNode) (t : Target) (w2 : FluentWorkflow)
      (r : FluentNode) (hmem : n ∈ c.ns) (hw : n.workflow = some c.w.id)
      (hok : n.rshift c.w t = .ok (w2, r)) :
      Step c ⟨w2, c.ns⟩
  | entry (c : Config) (arg : NameOrNode) (w2 : FluentWorkflow)
      (hok : c.w.set_entry_point arg = .ok w2) :
      Step c ⟨w2, c.ns⟩
  | cond (c : Config) (src : NameOrNode) (f : Fn)
      (mp : List (String × MapVal)) :
      Step c ⟨c.w.add_conditional_edges src f mp, c.ns⟩

/-- Configurations reachable from a fresh workflow with no held nodes. -/
inductive Reachable : Config → Prop where
  | init (id : Nat) : Reachable ⟨create_workflow id, []⟩
  | step {c c2 : Config} : Reachable c → Step c c2 → Reachable c2

/-- The registration invariant: every held node that carries this workflow
as its owner is present in the node mapping under its name. -/
def RegInv (c : Config) : Prop :=
  ∀ n ∈ c.ns, n.workflow = some c.w.id →
    (c.w.nodes.lookup n.name).isSome = true

/-- The registration invariant holds in every reachable configuration. -/
theorem regInv_reachable (c : Config) (h : Reachable c) : RegInv c := by
  induction h with
  | init id =>
    intro n hn hw
    exact absurd hn (List.not_mem_nil n)
  | @step c0 c2 hr hs ih =>
    cases hs with
    | newNode name =>
      intro m hm hw
      rcases List.mem_cons.mp hm with h1 | h1
      · subst h1
        exact Option.noConfusion hw
      · exact ih m h1 hw
    | withFunction n f hmem =>
      intro m hm hw
      rcases List.mem_map.mp hm with ⟨m0, hm0, heq⟩
      by_cases hc : m0 = n
      · rw [if_pos hc] at heq
        subst heq
        exact ih n hmem hw
      · rw [if_neg hc] at heq
        subst heq
        exact ih m0 hm0 hw
    | register n w2 n2 hmem hok =>
      obtain ⟨f, hf, hn2, hw2⟩ := rshift_register_inv c0.w n w2 n2 hok
      intro m hm hw
      rcases List.mem_map.mp hm with ⟨m0, hm0, heq⟩
      show ((w2.nodes).lookup m.name).isSome = true
      subst hw2
      by_cases hc : m0 = n
      · rw [if_pos hc] at heq
        subst heq
        subst hn2
        show ((dictSet c0.w.nodes n.name
            { n with workflow := some c0.w.id }).lookup n.name).isSome = true
        simp [dictSet_lookup_self]
      · rw [if_neg hc] at heq
        subst heq
        exact dictSet_lookup_isSome_mono _ _ _ _ (ih m0 hm0 hw)
    | connect n t w2 r hmem hcw hok =>
      obtain ⟨hid, hnodes, hentry, tgt, hgraph⟩ :=
        rshift_connect_inv n c0.w t w2 r hok
      intro m hm hw
      show ((w2.nodes).lookup m.name).isSome = true
      rw [hnodes]
      refine ih m hm ?_
      rw [show m.workflow = some w2.id from hw, hid]
    | entry arg w2 hok =>
      obtain ⟨hid, hnodes⟩ := set_entry_point_inv c0.w arg w2 hok
      intro m hm hw
      show ((w2.nodes).lookup m.name).isSome = true
      rw [hnodes]
      refine ih m hm ?_
      rw [show m.workflow = some w2.id from hw, hid]
    | cond src f mp =>
      intro m hm hw
      exact ih m hm hw

/-- Fixture: the workflow after registering a node "a" into a fresh
workflow. -/
def wReg : FluentWorkflow :=
  ⟨0, ⟨[("a", 0)], [], [], []⟩, [("a", ⟨"a", some 0, some 0⟩)], none⟩

/-- Fixture: the held node object after that registration. -/
def aReg : FluentNode := ⟨"a", some 0, some 0⟩

/-- Claim C3 counterexample: in a reachable workflow (a fresh workflow
into which one node "a" was registered), `connect_to` with the plain
string "bogus" succeeds and forwards an edge whose target is neither a
registered node name nor the terminal marker, so the claimed invariant
fails. -/
theorem edge_endpoint_counterexample :
    (create_workflow 0).rshift (.node ⟨"a", some 0, none⟩) =
        .ok (wReg, aReg) ∧
    aReg.rshift wReg (.str "bogus") =
      .ok ({ wReg with graph := wReg.graph.add_edge "a" "bogus" }, aReg) ∧
    ({ wReg with graph := wReg.graph.add_edge "a" "bogus" } :
        FluentWorkflow).graph.edgeCalls = [("a", "bogus")] ∧
    wReg.nodes.lookup "bogus" = none ∧
    "bogus" ≠ ENDMarker ∧ "bogus" ≠ "END" := by
  refine ⟨rfl, ?_, rfl, by decide, by decide, by decide⟩
  simp [FluentNode.rshift, aReg, ENDMarker]

/-- Claim C3 (amended): over every reachable configuration, every held
node owned by the workflow is registered under its name, so a successful
`connect_to` from such a node forwards exactly one new edge whose source
is a registered node name; the target is a registered node name when the
operand is a held node (necessarily of the same workflow), and the
terminal marker when the operand string is the marker or its public
alias — but a plain-string operand passes through unvalidated, and may
be neither a registered name nor the marker (as may every name
`add_conditional_edges` forwards, which performs no validation at
all). -/
theorem edge_endpoint_invariant (c : Config) (hreach : Reachable c) :
    RegInv c ∧
    (∀ n ∈ c.ns, n.workflow = some c.w.id →
      ∀ o ∈ c.ns, ∀ w2 r, n.rshift c.w (.node o) = .ok (w2, r) →
        w2.graph.edgeCalls = c.w.graph.edgeCalls ++ [(n.name, o.name)] ∧
        (c.w.nodes.lookup n.name).isSome = true ∧
        (c.w.nodes.lookup o.name).isSome = true) ∧
    (∀ n ∈ c.ns, n.workflow = some c.w.id →
      ∀ s w2 r, n.rshift c.w (.str s) = .ok (w2, r) →
        (c.w.nodes.lookup n.name).isSome = true ∧
        ((s = "END" ∨ s = ENDMarker) →
          w2.graph.edgeCalls =
            c.w.graph.edgeCalls ++ [(n.name, ENDMarker)]) ∧
        (¬(s = "END" ∨ s = ENDMarker) →
          w2.graph.edgeCalls = c.w.graph.edgeCalls ++ [(n.name, s)])) := by
  have hinv := regInv_reachable c hreach
  refine ⟨hinv, ?_, ?_⟩
  · intro n hn hwn o ho w2 r hok
    unfold FluentNode.rshift at hok
    simp only [hwn] at hok
    by_cases how : o.workflow = some c.w.id
    · rw [if_neg (by simp [how])] at hok
      obtain ⟨hw2, hr⟩ := by
        simpa only [Except.ok.injEq, Prod.mk.injEq] using hok
      refine ⟨?_, hinv n hn hwn, hinv o ho how⟩
      rw [← hw2]
      simp [StateGraph.add_edge]
    · rw [if_pos (by simp [how])] at hok
      simp at hok
  · intro n hn hwn s w2 r hok
    unfold FluentNode.rshift at hok
    simp only [hwn] at hok
    refine ⟨hinv n hn hwn, ?_, ?_⟩
    · intro hs
      rw [if_pos hs] at hok
      obtain ⟨hw2, hr⟩ := by
        simpa only [Except.ok.injEq, Prod.mk.injEq] using hok
      rw [← hw2]
      simp [StateGraph.add_edge]
    · intro hs
      rw [if_neg hs] at hok
      obtain ⟨hw2, hr⟩ := by
        simpa only [Except.ok.injEq, Prod.mk.injEq] using hok
      rw [← hw2]
      simp [StateGraph.add_edge]

/-- Fixture: the configuration holding `wReg` and its registered node. -/
def cReg : Config := ⟨wReg, [aReg]⟩

/-- The fixture configuration is reachable: create a fresh workflow,
create the node, bind its callable, register it. -/
theorem cReg_reachable : Reachable cReg := by
  have h0 : Reachable ⟨create_workflow 0, []⟩ := Reachable.init 0
  have h1 : Reachable ⟨create_workflow 0, [⟨"a", none, none⟩]⟩ :=
    Reachable.step h0 (Step.newNode _ "a")
  have h2 : Reachable ⟨create_workflow 0, [⟨"a", some 0, none⟩]⟩ := by
    have hstep := Reachable.step h1
      (Step.withFunction ⟨create_workflow 0, [⟨"a", none, none⟩]⟩
        ⟨"a", none, none⟩ 0 (by simp))
    exact hstep
  have h3 := Reachable.step h2
    (Step.register ⟨create_workflow 0, [⟨"a", some 0, none⟩]⟩
      ⟨"a", some 0, none⟩ wReg aReg (by simp) rfl)
  exact h3

/-- Claim C3 closed instantiation of the amended theorem. -/
theorem edge_endpoint_invariant_witness :
    (wReg.nodes.lookup aReg.name).isSome = true ∧
    (wReg.graph.add_edge aReg.name "bogus").edgeCalls =
      wReg.graph.edgeCalls ++ [(aReg.name, "bogus")] :=
  ⟨(edge_endpoint_invariant cReg cReg_reachable).1 aReg (by simp [cReg]) rfl,
   ((edge_endpoint_invariant cReg cReg_reachable).2.2 aReg (by simp [cReg]) rfl
      "bogus" { wReg with graph := wReg.graph.add_edge aReg.name "bogus" }
      aReg rfl).2.2
      (by decide)⟩


/-- Fixture: a store holding one workflow dictionary. -/
def sampleStore : DictStore := ⟨[[("A", nodeA)]]⟩

/-- Fixture: an object-level view of a workflow whose dictionary is the
one at identity 0 of `sampleStore`. -/
def sampleRef : FluentWorkflowRef := ⟨0⟩

/-- Claim C9: the nodes accessor returns a defensive copy of the node
mapping: the returned dictionary is a fresh object distinct from the
internal one holding equal contents, mutating the returned copy
arbitrarily leaves subsequent `get_node` results unchanged, and
`get_node` itself leaves the store untouched, so two successive calls
return equal results. -/
theorem nodes_copy_defensive (w : FluentWorkflowRef) (s : DictStore)
    (href : w.nodesRef < s.dicts.length)
    (d : List (String × FluentNode)) (name : String) :
    (w.nodesProp s).2 ≠ w.nodesRef ∧
    ((w.nodesProp s).1.read (w.nodesProp s).2 = s.read w.nodesRef) ∧
    ((w.get_nodeRef (((w.nodesProp s).1).write (w.nodesProp s).2 d) name).1 =
      (w.get_nodeRef s name).1) ∧
    (w.get_nodeRef s name).2 = s ∧
    ((w.get_nodeRef ((w.get_nodeRef s name).2) name).1 =
      (w.get_nodeRef s name).1) := by
  have hfresh : s.dicts.length ≠ w.nodesRef := (Nat.ne_of_lt href).symm
  refine ⟨hfresh, ?_, ?_, rfl, rfl⟩
  · show (DictStore.mk (s.dicts ++ [s.read w.nodesRef])).read s.dicts.length =
      s.read w.nodesRef
    unfold DictStore.read
    rw [List.get?_eq_getElem?, List.getElem?_concat_length, Option.getD_some]
  · show (((DictStore.mk (s.dicts ++ [s.read w.nodesRef])).write
        s.dicts.length d).read w.nodesRef).lookup name =
      (s.read w.nodesRef).lookup name
    unfold DictStore.write DictStore.read
    rw [List.get?_eq_getElem?, List.get?_eq_getElem?,
      List.getElem?_set_ne hfresh, List.getElem?_append_left href]

/-- Claim C9 closed instantiation. -/
theorem nodes_copy_defensive_witness :
    sampleRef.nodesRef < sampleStore.dicts.length ∧
    (sampleRef.nodesProp sampleStore).2 ≠ sampleRef.nodesRef ∧
    ((sampleRef.get_nodeRef
        (((sampleRef.nodesProp sampleStore).1).write
          (sampleRef.nodesProp sampleStore).2 []) "A").1 =
      (sampleRef.get_nodeRef sampleStore "A").1) :=
  ⟨by decide,
   (nodes_copy_defensive sampleRef sampleStore (by decide) [] "A").1,
   (nodes_copy_defensive sampleRef sampleStore (by decide) [] "A").2.2.1⟩

end Fluent
